import Mathlib

/-!
# Verification of the url_shortener core

Shallow embedding of the base62 codec (`base62.helper.js`), the resolution
engine (`src/services/url.service.js`: `createShortUrl`, `getLongUrl`,
`migrateToNewStructure`), the visit recorder
(`analytics.service.js`: `trackVisitFromRequest`) and the redirect route
(`url.routes.js`: `router.get('/:shortUrl')`), together with proofs about
the spec's claims over these definitions.

Conventions of the embedding:
* JS numbers appear only as non-negative integers here, so they are `Nat`;
  overflow is irrelevant below `2 ^ 53` where all involved arithmetic is
  exact in IEEE doubles.
* JS strings are `String` (for the service layer) or `List Char` (for the
  codec, whose loops walk strings character by character).
* A thrown JS value is `Except.error`; the thrown objects
  `{type, message}` are `SvcError` values (the `details` field carries no
  control flow and is omitted).
* I/O against PostgreSQL and Redis becomes explicit state passing over a
  `SysState`; the possible failures of individual store calls are inputs
  (oracle flags), one flag per call site the claims are about.
-/

namespace UrlShortener

/-! ## The base62 codec (`base62.helper.js`) -/

/-- `const ALPHABET = '0123456789abcdefghijklmnopqrstuvwxyzABCDEFGHIJKLMNOPQRSTUVWXYZ'`. -/
def ALPHABET : List Char :=
  "0123456789abcdefghijklmnopqrstuvwxyzABCDEFGHIJKLMNOPQRSTUVWXYZ".toList

/-- `const BASE = ALPHABET.length; // 62`. -/
def BASE : Nat := ALPHABET.length

/-- `ALPHABET[d]`: JS string indexing (out of range never happens for the
indices the code produces; `' '` is a dummy default). -/
def chrOf (d : Nat) : Char := ALPHABET.getD d ' '

/-- `ALPHABET.indexOf(c)` on a suffix of the alphabet; `none` plays the
role of JS `-1`. -/
def idxFrom (c : Char) : List Char → Option Nat
  | [] => none
  | a :: rest => if a = c then some 0 else (idxFrom c rest).map (· + 1)

/-- `ALPHABET.indexOf(c)`, `none` for `-1`. -/
def alphaIdx (c : Char) : Option Nat := idxFrom c ALPHABET

/-- The `while (num > 0)` loop of `encode`:
`encoded = ALPHABET[num % BASE] + encoded; num = Math.floor(num / BASE)`. -/
def encodeLoop (n : Nat) (acc : List Char) : List Char :=
  if _h : n = 0 then acc
  else encodeLoop (n / BASE) (chrOf (n % BASE) :: acc)
termination_by n
decreasing_by exact Nat.div_lt_self (Nat.pos_of_ne_zero _h) (by decide)

/-- `encode(num)`. The `typeof`/negativity/integrality guard of the source
cannot fire on a `Nat` input; `encode(0)` returns `ALPHABET[0]`. -/
def encode (num : Nat) : List Char :=
  if num = 0 then [chrOf 0] else encodeLoop num []

/-- The `for` loop of `decode`: `decoded = decoded * BASE + index`, failing
on a character outside the alphabet. -/
def decodeLoop : List Char → Nat → Option Nat
  | [], acc => some acc
  | c :: rest, acc =>
    match alphaIdx c with
    | none => none
    | some i => decodeLoop rest (acc * BASE + i)

/-- `decode(str)`: empty input is an error, otherwise run the loop from 0. -/
def decode (s : List Char) : Option Nat :=
  if s.isEmpty then none else decodeLoop s 0

/-- `isValidBase62(str)`: `false` on the empty string, `false` as soon as a
character is outside the alphabet, `true` otherwise. -/
def isValidBase62 (s : List Char) : Bool :=
  if s.isEmpty then false
  else s.all fun c => (alphaIdx c).isSome

/-! ## The cache store (Redis, as consumed by `url.service.js`) -/

/-- A Redis value: a legacy plain string (`GET`/`SET`) or a hash
(`HGETALL`/`HSET`).  Spec §6 reads these through `getLegacy` and
`getStructured`. -/
inductive CacheVal where
  | legacy (v : String)
  | hash (fields : List (String × String))
deriving DecidableEq, Repr

/-- The cache store: association list from Redis key to value.  TTLs are
not modelled: `expire` changes no key's value and no claim concerns
expiry. -/
abbrev Cache := List (String × CacheVal)

def cacheLookup (c : Cache) (k : String) : Option CacheVal :=
  (c.find? fun p => decide (p.1 = k)).map (·.2)

def hashGet (fields : List (String × String)) (f : String) : Option String :=
  (fields.find? fun p => decide (p.1 = f)).map (·.2)

def hashSet (fields : List (String × String)) (f v : String) :
    List (String × String) :=
  (fields.filter fun p => decide (p.1 ≠ f)) ++ [(f, v)]

def cacheSet (c : Cache) (k : String) (v : CacheVal) : Cache :=
  (c.filter fun p => decide (p.1 ≠ k)) ++ [(k, v)]

/-- A rejected Redis command: `WRONGTYPE Operation against a key holding
the wrong kind of value`.  Reading a key through a command of the other
type rejects the promise; the service's surrounding `try`/`catch` decides
what becomes of it. -/
inductive RedisErr where
  | wrongType
deriving DecidableEq, Repr

/-- `HGETALL k` (node-redis v4): the fields when `k` holds a hash, the
empty hash `{}` when `k` is absent, and a WRONGTYPE rejection when `k`
holds a string-typed (legacy) value. -/
def hGetAll (c : Cache) (k : String) : Except RedisErr (List (String × String)) :=
  match cacheLookup c k with
  | some (.hash fields) => .ok fields
  | some (.legacy _) => .error .wrongType
  | none => .ok []

/-- `GET k` (node-redis v4): the string when `k` holds a legacy plain
value, `null` when `k` is absent, and a WRONGTYPE rejection when `k`
holds a hash. -/
def redisGet (c : Cache) (k : String) : Except RedisErr (Option String) :=
  match cacheLookup c k with
  | some (.legacy v) => .ok (some v)
  | some (.hash _) => .error .wrongType
  | none => .ok none

/-- The post-state of a `HSET k fields` call that resolved: the hash at
`k` updated field by field, a missing key created as a hash of exactly
these fields.  A rejection of the write (connection loss, or WRONGTYPE on
a legacy-typed key — a state in which the call cannot resolve) is carried
by the failure flag of the call site, so the legacy branch below is never
observed together with a cleared flag. -/
def hSetAll (c : Cache) (k : String) (fields : List (String × String)) : Cache :=
  match cacheLookup c k with
  | some (.hash old) =>
    cacheSet c k (.hash (fields.foldl (fun acc fv => hashSet acc fv.1 fv.2) old))
  | _ => cacheSet c k (.hash fields)

/-! ## The durable store (PostgreSQL tables used by the engine) -/

/-- One row of the `urls` table. -/
structure UrlRow where
  id : Nat
  userId : String
  longUrl : String
  /-- `NULL` between STEP A and STEP C of the generated path -/
  shortUrl : Option String
  topic : Option String
  createdAt : Nat
  lastAccessed : Option Nat
deriving DecidableEq, Repr

/-- One row of the `analytics` table (the parser-derived columns
`device_type` … `city` carry no control flow and are omitted). -/
structure AnalyticsRow where
  urlId : Nat
  visitorIp : String
  userAgent : String
deriving DecidableEq, Repr

/-- The PostgreSQL state: the `urls` table with its auto-increment
counter, and the `analytics` table. -/
structure Db where
  rows : List UrlRow
  nextId : Nat
  analytics : List AnalyticsRow
deriving DecidableEq, Repr

/-- `SELECT ... FROM urls WHERE short_url = $1` (first matching row). -/
def dbFindByCode (db : Db) (code : String) : Option UrlRow :=
  db.rows.find? fun r => decide (r.shortUrl = some code)

/-- The two stores together. -/
structure SysState where
  db : Db
  cache : Cache
deriving DecidableEq, Repr

/-! ## Thrown values -/

/-- The `type` field of thrown service errors; `raw` stands for a native
driver error, which has no `type` field at all. -/
inductive ErrKind where
  | validation
  | system
  | raw
deriving DecidableEq, Repr

/-- A thrown value: its `type` and `message` (the `details` field carries
no control flow and is omitted). -/
structure SvcError where
  type : ErrKind
  message : String
deriving DecidableEq, Repr

def aliasTakenErr : SvcError := ⟨.validation, "Custom alias already taken"⟩

def systemCreateErr : SvcError := ⟨.system, "Failed to create short URL"⟩

/-- Thrown both by `getLongUrl` (tier-3 miss) and by
`trackVisitFromRequest` (identical `type` and `message` in the source). -/
def notFoundErr : SvcError := ⟨.validation, "Short URL not found"⟩

def systemGetErr : SvcError := ⟨.system, "Failed to retrieve URL"⟩

/-! ## `UrlService.createShortUrl` -/

/-- JS truthiness of the optional `customAlias` argument: `undefined` and
`''` are falsy, so both select the generated path. -/
def optTruthy : Option String → Bool
  | some s => !s.isEmpty
  | none => false

/-- `base62.encode` producing a JS string. -/
def encodeStr (n : Nat) : String := ⟨encode n⟩

/-- The object `createShortUrl` returns on success. -/
structure CreatedUrl where
  id : Nat
  shortUrl : String
  longUrl : String
  topic : Option String
  createdAt : Nat
deriving DecidableEq, Repr

/-- Failure oracle for one `createShortUrl` call, one flag per store call
the claims are about. -/
structure CreateEnv where
  /-- the `INSERT` hits the uniqueness constraint on `short_url`
  (a concurrent duplicate committed between check and insert) -/
  insertDup : Bool
  /-- the first write-through call, `await hSet(url:C, urlData)`, throws -/
  hSetFails : Bool
  /-- the second write-through call, `await expire(url:C, ttl)`, throws —
  after the record is already written -/
  expireFails : Bool
  /-- the current clock, for `created_at` and `Date.now()` -/
  now : Nat
deriving Repr

/-- `UrlService.createShortUrl(userId, longUrl, customAlias, topic)`.

The `try` body runs the durable-store phase and then the write-through;
the `catch` rethrows `type === 'validation'` errors unchanged and converts
every other throw into the generic `system` error. -/
def createShortUrl (st : SysState) (env : CreateEnv) (userId longUrl : String)
    (customAlias : Option String) (topic : Option String) :
    Except SvcError CreatedUrl × SysState :=
  let durable : Except SvcError (Db × Nat × String) :=
    if optTruthy customAlias then
      let aliasStr := customAlias.getD ""
      -- Check if custom alias already exists
      match dbFindByCode st.db aliasStr with
      | some _ => .error aliasTakenErr
      | none =>
        -- INSERT (user_id, long_url, short_url, topic): the uniqueness
        -- constraint can still reject a concurrent duplicate, surfacing
        -- as a raw driver error with no `type` field
        if env.insertDup then
          .error ⟨.raw, "duplicate key value violates unique constraint"⟩
        else
          let row : UrlRow :=
            ⟨st.db.nextId, userId, longUrl, some aliasStr, topic, env.now, none⟩
          .ok (⟨st.db.rows ++ [row], st.db.nextId + 1, st.db.analytics⟩, row.id, aliasStr)
    else
      -- STEP A: INSERT without short_url to obtain the auto-increment id
      let row0 : UrlRow := ⟨st.db.nextId, userId, longUrl, none, topic, env.now, none⟩
      let db1 : Db := ⟨st.db.rows ++ [row0], st.db.nextId + 1, st.db.analytics⟩
      -- STEP B: encode the numeric id to Base62
      let code := encodeStr row0.id
      -- STEP C: UPDATE urls SET short_url = code WHERE id = row0.id
      let db2 : Db :=
        ⟨db1.rows.map fun r => if r.id = row0.id then { r with shortUrl := some code } else r,
         db1.nextId, db1.analytics⟩
      .ok (db2, row0.id, code)
  match durable with
  | .error e =>
    if e.type = .validation then (.error e, st) else (.error systemCreateErr, st)
  | .ok (db2, urlId, code) =>
    -- WRITE-THROUGH: two awaited Redis calls inside the same try; a throw
    -- from either reaches the catch-all although PostgreSQL committed
    let urlData := [("longUrl", longUrl), ("shortUrl", code), ("userId", userId),
                    ("topic", topic.getD ""), ("createdAt", toString env.now),
                    ("status", "active")]
    if env.hSetFails then (.error systemCreateErr, ⟨db2, st.cache⟩)
    else
      let cache2 := hSetAll st.cache ("url:" ++ code) urlData
      -- `expire` sets only the TTL (not modelled); its failure still
      -- aborts the creation, with the record already in the cache
      if env.expireFails then (.error systemCreateErr, ⟨db2, cache2⟩)
      else (.ok ⟨urlId, code, longUrl, topic, env.now⟩, ⟨db2, cache2⟩)

/-! ## `UrlService.getLongUrl` and the cache migration -/

/-- Failure oracle for one `getLongUrl` call. -/
structure GetEnv where
  /-- the awaited `hSet` of `lastAccessed` on a structured hit throws -/
  lastAccessedSetFails : Bool
  /-- the backfill `multi.exec` throws (caught by the inner try, logged) -/
  backfillFails : Bool
  now : Nat
deriving Repr

/-- The tier-1 test `urlData && urlData.longUrl` on a resolved `HGETALL`:
the target when the key holds a hash whose `longUrl` field is truthy. -/
def structuredTarget (c : Cache) (k : String) : Option String :=
  match hGetAll c k with
  | .ok fields =>
    match hashGet fields "longUrl" with
    | some v => if v = "" then none else some v
    | none => none
  | .error _ => none

/-- The tier-2 JS-truthiness test on a resolved legacy `GET`. -/
def legacyTarget (c : Cache) (k : String) : Option String :=
  match redisGet c k with
  | .ok (some v) => if v = "" then none else some v
  | _ => none

/-- `UrlService.migrateToNewStructure(shortUrl, longUrl)`: builds
`urlData` and then calls `redisClient.pipeline()` — a method the
node-redis v4 client in use (`isReady`, camelCase `hSet`, `multi()`) does
not have — so the call throws `TypeError` before any Redis command is
queued and the promise rejects with the cache untouched.  The dead
`hSet(url:C, urlData)` / `expire(url:C, ttl)` / `del(url:C)` pipeline body
(whose `del`, commented "Remove old key", targets the very key just
written) is never reached. -/
def migrateToNewStructure (_c : Cache) (_shortUrl _longUrl : String)
    (_now : Nat) : Except Unit Cache :=
  .error ()

/-- `UrlService.getLongUrl(shortUrl)`: structured cache, then legacy
cache, then PostgreSQL; the outer `catch` rethrows validation errors and
converts any other throw — including a Redis WRONGTYPE rejection — into
the `system` error. -/
def getLongUrl (st : SysState) (env : GetEnv) (shortUrl : String) :
    Except SvcError String × SysState :=
  let key := "url:" ++ shortUrl
  -- Try Redis hash first (new data structure); `HGETALL` on a
  -- string-typed key rejects with WRONGTYPE and reaches the outer catch
  match hGetAll st.cache key with
  | .error _ => (.error systemGetErr, st)
  | .ok _ =>
    match structuredTarget st.cache key with
    | some v =>
      -- `await hSet(key, 'lastAccessed', ...)` precedes the return; a
      -- throw reaches the outer catch and becomes the `system` error
      if env.lastAccessedSetFails then (.error systemGetErr, st)
      else (.ok v, ⟨st.db, hSetAll st.cache key [("lastAccessed", toString env.now)]⟩)
    | none =>
      -- Try legacy Redis key (for backward compatibility); `GET` on a
      -- hash-typed key likewise rejects with WRONGTYPE
      match redisGet st.cache key with
      | .error _ => (.error systemGetErr, st)
      | .ok _ =>
        match legacyTarget st.cache key with
        | some v =>
          -- migrate in background; the rejected promise is only logged by
          -- `.catch(...)`, the resolution proceeds with the migration's
          -- post-state (unchanged, since the migration always rejects)
          match migrateToNewStructure st.cache shortUrl v env.now with
          | .error _ => (.ok v, ⟨st.db, st.cache⟩)
          | .ok c2 => (.ok v, ⟨st.db, c2⟩)
        | none =>
          -- If not in Redis, try PostgreSQL
          match dbFindByCode st.db shortUrl with
          | none => (.error notFoundErr, st)
          | some row =>
            -- backfill in its own try/catch: a failure is logged and the
            -- PostgreSQL answer is still returned
            let newUrlData := [("longUrl", row.longUrl), ("shortUrl", shortUrl),
                               ("lastAccessed", toString env.now),
                               ("createdAt", (row.lastAccessed.map toString).getD (toString env.now))]
            let cache2 := if env.backfillFails then st.cache
                          else hSetAll st.cache key newUrlData
            (.ok row.longUrl, ⟨st.db, cache2⟩)

/-! ## Visit recording and the redirect route -/

/-- The request metadata the visit recorder stores. -/
structure Req where
  ip : String
  userAgent : String
deriving DecidableEq, Repr

/-- Failure oracle for one `trackVisitFromRequest` call. -/
structure TrackEnv where
  /-- the analytics `INSERT` (or the `last_accessed` `UPDATE`) throws -/
  insertFails : Bool
  now : Nat
deriving Repr

/-- `AnalyticsService.trackVisitFromRequest(shortUrl, req)`: looks the
code up in PostgreSQL, inserts an analytics row and touches
`last_accessed`; its `catch` logs and rethrows, so every failure
propagates to the caller. -/
def trackVisitFromRequest (st : SysState) (env : TrackEnv) (shortUrl : String)
    (req : Req) : Except SvcError Unit × SysState :=
  match dbFindByCode st.db shortUrl with
  | none => (.error notFoundErr, st)
  | some row =>
    if env.insertFails then (.error ⟨.raw, "analytics insert failed"⟩, st)
    else
      let db2 : Db :=
        ⟨st.db.rows.map fun r =>
           if r.id = row.id then { r with lastAccessed := some env.now } else r,
         st.db.nextId,
         st.db.analytics ++ [⟨row.id, req.ip, req.userAgent⟩]⟩
      (.ok (), ⟨db2, st.cache⟩)

/-- What the `GET /:shortUrl` handler sends: the redirect, or the error
forwarded to `next(err)`. -/
inductive Response where
  | redirect (url : String)
  | failed (e : SvcError)
deriving DecidableEq, Repr

/-- `router.get('/:shortUrl')`: `await getLongUrl`, then `await
trackVisitFromRequest`, and only then `res.redirect(longUrl)`; any throw
goes to `next(err)` instead of the redirect. -/
def redirectRoute (st : SysState) (genv : GetEnv) (tenv : TrackEnv)
    (shortUrl : String) (req : Req) : Response × SysState :=
  match getLongUrl st genv shortUrl with
  | (.error e, st1) => (.failed e, st1)
  | (.ok longUrl, st1) =>
    match trackVisitFromRequest st1 tenv shortUrl req with
    | (.error e, st2) => (.failed e, st2)
    | (.ok _, st2) => (.redirect longUrl, st2)

/-! ### Basic codec lemmas -/

theorem BASE_eq : BASE = 62 := rfl

theorem encodeLoop_zero (acc : List Char) : encodeLoop 0 acc = acc := by
  unfold encodeLoop; simp

theorem encodeLoop_pos {n : Nat} (h : n ≠ 0) (acc : List Char) :
    encodeLoop n acc = encodeLoop (n / BASE) (chrOf (n % BASE) :: acc) := by
  conv_lhs => unfold encodeLoop
  simp [h]

theorem idxFrom_lt_length {c : Char} {l : List Char} {d : Nat}
    (h : idxFrom c l = some d) : d < l.length := by
  induction l generalizing d with
  | nil => simp [idxFrom] at h
  | cons a rest ih =>
    by_cases hac : a = c
    · simp [idxFrom, hac] at h
      simp [List.length_cons]
      omega
    · simp [idxFrom, hac] at h
      obtain ⟨e, he, rfl⟩ := h
      have := ih he
      simpa using Nat.succ_lt_succ this

theorem idxFrom_getD {c : Char} {l : List Char} {d : Nat}
    (h : idxFrom c l = some d) : l.getD d ' ' = c := by
  induction l generalizing d with
  | nil => simp [idxFrom] at h
  | cons a rest ih =>
    by_cases hac : a = c
    · simp [idxFrom, hac] at h
      subst h
      simpa using hac
    · simp [idxFrom, hac] at h
      obtain ⟨e, he, rfl⟩ := h
      simpa using ih he

theorem idxFrom_isSome_of_mem {c : Char} {l : List Char} (h : c ∈ l) :
    (idxFrom c l).isSome := by
  induction l with
  | nil => simp at h
  | cons a rest ih =>
    by_cases hac : a = c
    · simp [idxFrom, hac]
    · rcases List.mem_cons.mp h with h1 | h2
      · exact absurd h1.symm hac
      · have := ih h2
        simp [idxFrom, hac, Option.isSome_map]
        exact this

theorem alphaIdx_lt {c : Char} {d : Nat} (h : alphaIdx c = some d) : d < BASE :=
  idxFrom_lt_length h

theorem chrOf_alphaIdx {c : Char} {d : Nat} (h : alphaIdx c = some d) :
    chrOf d = c :=
  idxFrom_getD h

theorem alphaIdx_chrOf : ∀ d, d < 62 → alphaIdx (chrOf d) = some d := by
  decide

theorem chrOf_ne_zero_symbol : ∀ d, d < 62 → 0 < d → chrOf d ≠ '0' := by
  decide

/-! ### The encoding loop -/

theorem encodeLoop_append (n : Nat) :
    ∀ acc, encodeLoop n acc = encodeLoop n [] ++ acc := by
  induction n using Nat.strong_induction_on with
  | _ n ih =>
    intro acc
    by_cases h : n = 0
    · subst h
      simp [encodeLoop_zero]
    · have hlt : n / BASE < n := Nat.div_lt_self (Nat.pos_of_ne_zero h) (by decide)
      rw [encodeLoop_pos h, encodeLoop_pos h []]
      rw [ih _ hlt (chrOf (n % BASE) :: acc), ih _ hlt [chrOf (n % BASE)]]
      simp

theorem encodeLoop_eq_append {n : Nat} (h : n ≠ 0) :
    encodeLoop n [] = encodeLoop (n / BASE) [] ++ [chrOf (n % BASE)] := by
  rw [encodeLoop_pos h, encodeLoop_append]

theorem encodeLoop_ne_nil {n : Nat} (h : n ≠ 0) : encodeLoop n [] ≠ [] := by
  rw [encodeLoop_eq_append h]
  simp

theorem encodeLoop_small {d : Nat} (h0 : d ≠ 0) (hlt : d < BASE) :
    encodeLoop d [] = [chrOf d] := by
  rw [encodeLoop_eq_append h0, Nat.div_eq_of_lt hlt, Nat.mod_eq_of_lt hlt,
    encodeLoop_zero]
  simp

theorem encodeLoop_headD_ne_zero : ∀ n, n ≠ 0 →
    (encodeLoop n []).headD ' ' ≠ '0' := by
  intro n
  induction n using Nat.strong_induction_on with
  | _ n ih =>
    intro hn
    by_cases hsmall : n / BASE = 0
    · have hnb : n < BASE := by
        rw [BASE_eq] at hsmall ⊢
        omega
      rw [encodeLoop_eq_append hn, hsmall, encodeLoop_zero, Nat.mod_eq_of_lt hnb]
      simp only [List.nil_append, List.headD]
      exact chrOf_ne_zero_symbol n (by rw [BASE_eq] at hnb; exact hnb)
        (Nat.pos_of_ne_zero hn)
    · have hlt : n / BASE < n := Nat.div_lt_self (Nat.pos_of_ne_zero hn) (by decide)
      have hmain := ih (n / BASE) hlt hsmall
      obtain ⟨x, xs, hx⟩ : ∃ x xs, encodeLoop (n / BASE) [] = x :: xs := by
        cases hcase : encodeLoop (n / BASE) [] with
        | nil => exact absurd hcase (encodeLoop_ne_nil hsmall)
        | cons x xs => exact ⟨x, xs, rfl⟩
      rw [encodeLoop_eq_append hn, hx]
      rw [hx] at hmain
      simpa using hmain

/-! ### The decoding loop -/

theorem decodeLoop_append (l1 l2 : List Char) (a : Nat) :
    decodeLoop (l1 ++ l2) a = (decodeLoop l1 a).bind fun m => decodeLoop l2 m := by
  induction l1 generalizing a with
  | nil => simp [decodeLoop]
  | cons c rest ih =>
    simp only [List.cons_append, decodeLoop]
    cases alphaIdx c with
    | none => simp
    | some i => simp [ih]

theorem decodeLoop_le {s : List Char} : ∀ {a m : Nat},
    decodeLoop s a = some m → a ≤ m := by
  induction s with
  | nil =>
    intro a m h
    simp [decodeLoop] at h
    omega
  | cons c rest ih =>
    intro a m h
    simp only [decodeLoop] at h
    cases hc : alphaIdx c with
    | none =>
      rw [hc] at h
      simp at h
    | some i =>
      rw [hc] at h
      have hstep : a ≤ a * BASE + i := by
        have := Nat.le_mul_of_pos_right a (show 0 < BASE by decide)
        omega
      exact le_trans hstep (ih h)

theorem decodeLoop_isSome {s : List Char} (h : ∀ c ∈ s, c ∈ ALPHABET) :
    ∀ a, ∃ m, decodeLoop s a = some m := by
  induction s with
  | nil =>
    intro a
    exact ⟨a, rfl⟩
  | cons c rest ih =>
    intro a
    have hc : c ∈ ALPHABET := h c (List.mem_cons_self c rest)
    obtain ⟨d, hd⟩ := Option.isSome_iff_exists.mp (idxFrom_isSome_of_mem hc)
    obtain ⟨m, hm⟩ := ih (fun x hx => h x (List.mem_cons_of_mem c hx)) (a * BASE + d)
    refine ⟨m, ?_⟩
    simp only [decodeLoop, alphaIdx] at hd ⊢
    rw [hd]
    exact hm

/-! ### The integer-side round trip -/

theorem decodeLoop_encodeLoop : ∀ n, n ≠ 0 → ∀ a,
    decodeLoop (encodeLoop n []) a =
      some (a * BASE ^ (encodeLoop n []).length + n) := by
  intro n
  induction n using Nat.strong_induction_on with
  | _ n ih =>
    intro hn a
    by_cases hsmall : n / BASE = 0
    · have hnb : n < BASE := by
        rw [BASE_eq] at hsmall ⊢
        omega
      rw [encodeLoop_eq_append hn, hsmall, encodeLoop_zero, Nat.mod_eq_of_lt hnb]
      have halpha : alphaIdx (chrOf n) = some n :=
        alphaIdx_chrOf n (by rw [BASE_eq] at hnb; exact hnb)
      simp [decodeLoop, halpha]
    · have hlt : n / BASE < n := Nat.div_lt_self (Nat.pos_of_ne_zero hn) (by decide)
      have ihd := ih (n / BASE) hlt hsmall a
      rw [encodeLoop_eq_append hn, decodeLoop_append, ihd]
      have hmodlt : n % BASE < BASE := Nat.mod_lt _ (by decide)
      have halpha : alphaIdx (chrOf (n % BASE)) = some (n % BASE) :=
        alphaIdx_chrOf (n % BASE) (by rw [BASE_eq] at hmodlt; exact hmodlt)
      simp only [Option.some_bind, decodeLoop, halpha, List.length_append,
        List.length_singleton]
      congr 1
      calc (a * BASE ^ (encodeLoop (n / BASE) []).length + n / BASE) * BASE + n % BASE
          = a * (BASE ^ (encodeLoop (n / BASE) []).length * BASE) +
              (BASE * (n / BASE) + n % BASE) := by ring
        _ = a * BASE ^ ((encodeLoop (n / BASE) []).length + 1) + n := by
            rw [Nat.div_add_mod, pow_succ]

theorem decode_encode (n : Nat) : decode (encode n) = some n := by
  by_cases hn : n = 0
  · subst hn
    decide
  · have hne := encodeLoop_ne_nil hn
    rw [encode, if_neg hn, decode, if_neg (by simpa [List.isEmpty_iff] using hne)]
    rw [decodeLoop_encodeLoop n hn 0]
    simp

/-! ### The string-side round trip -/

theorem encodeLoop_decodeLoop : ∀ (s : List Char), (∀ c ∈ s, c ∈ ALPHABET) →
    ∀ a m, 0 < a → decodeLoop s a = some m →
      encodeLoop m [] = encodeLoop a [] ++ s := by
  intro s
  induction s with
  | nil =>
    intro _ a m _ h
    simp [decodeLoop] at h
    subst h
    simp
  | cons c rest ih =>
    intro hval a m ha h
    have hc : c ∈ ALPHABET := hval c (List.mem_cons_self c rest)
    obtain ⟨d, hd⟩ := Option.isSome_iff_exists.mp (idxFrom_isSome_of_mem hc)
    have hd' : alphaIdx c = some d := hd
    have hdlt : d < BASE := alphaIdx_lt hd'
    simp only [decodeLoop, hd'] at h
    have ha2 : 0 < a * BASE + d := by
      have : 0 < a * BASE := Nat.mul_pos ha (by decide)
      omega
    have ihr := ih (fun x hx => hval x (List.mem_cons_of_mem c hx))
      (a * BASE + d) m ha2 h
    have hstep : encodeLoop (a * BASE + d) [] = encodeLoop a [] ++ [chrOf d] := by
      have hdiv : (a * BASE + d) / BASE = a := by
        rw [Nat.mul_comm a BASE, Nat.mul_add_div (by decide), Nat.div_eq_of_lt hdlt]
        simp
      have hmod : (a * BASE + d) % BASE = d := by
        rw [Nat.mul_comm a BASE, Nat.mul_add_mod, Nat.mod_eq_of_lt hdlt]
      rw [encodeLoop_eq_append (Nat.pos_iff_ne_zero.mp ha2), hdiv, hmod]
    rw [ihr, hstep, chrOf_alphaIdx hd']
    simp

theorem alphaIdx_zero_symbol : alphaIdx '0' = some 0 := by decide

theorem chrOf_zero_symbol : chrOf 0 = '0' := by decide

/-! ### Concrete codec values -/

theorem encode_zero : encode 0 = ['0'] := by decide

theorem encode_61 : encode 61 = ['Z'] := by
  rw [encode, if_neg (by decide), encodeLoop_small (by decide) (by decide)]
  decide

theorem encode_62 : encode 62 = ['1', '0'] := by
  rw [encode, if_neg (by decide), encodeLoop_eq_append (by decide)]
  rw [show (62 : Nat) / BASE = 1 by decide, show (62 : Nat) % BASE = 0 by decide]
  rw [encodeLoop_small (by decide) (by decide)]
  decide

/-! ## Claims about the codec -/

/-- C1: for every integer `n` with `0 ≤ n < 2 ^ 53`, decoding the base62
encoding of `n` returns the original `n`. -/
theorem claim_C1_decode_encode (n : Nat) (_hn : n < 2 ^ 53) :
    decode (encode n) = some n :=
  decode_encode n

/-- Witness for C1 at `n = 1005` (the example in the source's doc
comment: `encode(1005) => 'g7'`). -/
theorem claim_C1_witness : 1005 < 2 ^ 53 ∧ decode (encode 1005) = some 1005 :=
  ⟨by decide, claim_C1_decode_encode 1005 (by decide)⟩

/-- C8 counterexample: the claim's middle equation is false — position 61
of the digits-lowercase-uppercase alphabet is `'Z'`, not `'z'` (which sits
at position 35), so `encode 61 = "Z"` and the claimed triple of equations
does not hold. -/
theorem claim_C8_counterexample :
    ¬(encode 0 = ['0'] ∧ encode 61 = ['z'] ∧ encode 62 = ['1', '0']) := by
  intro h
  have h61 := h.2.1
  rw [encode_61] at h61
  exact absurd h61 (by decide)

/-- C8 amended: the codec produces exactly `encode 0 = "0"`,
`encode 61 = "Z"` (the alphabet's last symbol), and `encode 62 = "10"`. -/
theorem claim_C8_amended :
    encode 0 = ['0'] ∧ encode 61 = ['Z'] ∧ encode 62 = ['1', '0'] :=
  ⟨encode_zero, encode_61, encode_62⟩

/-- C9: for every non-empty string `s` over the 62-symbol alphabet whose
decoded value is within the representable width, `encode (decode s)`
reproduces `s` exactly when `s` carries no leading zero-symbol padding,
i.e. unless `s` is longer than one character and starts with `'0'`. -/
theorem claim_C9_string_roundtrip (s : List Char) (hne : s ≠ [])
    (hval : ∀ c ∈ s, c ∈ ALPHABET)
    (_hwidth : ∀ n, decode s = some n → n < 2 ^ 53) :
    (decode s).map encode = some s ↔ ¬(1 < s.length ∧ s.headD ' ' = '0') := by
  obtain ⟨c, rest, rfl⟩ : ∃ c rest, s = c :: rest := by
    cases s with
    | nil => exact absurd rfl hne
    | cons c r => exact ⟨c, r, rfl⟩
  have hc : c ∈ ALPHABET := hval c (List.mem_cons_self c rest)
  obtain ⟨d, hd⟩ := Option.isSome_iff_exists.mp (idxFrom_isSome_of_mem hc)
  have hd' : alphaIdx c = some d := hd
  have hrest : ∀ x ∈ rest, x ∈ ALPHABET := fun x hx =>
    hval x (List.mem_cons_of_mem c hx)
  obtain ⟨m, hm⟩ := decodeLoop_isSome hrest (0 * BASE + d)
  have hdec : decode (c :: rest) = some m := by
    rw [decode, if_neg (by simp)]
    simp only [decodeLoop, hd']
    exact hm
  rw [hdec]
  by_cases hc0 : c = '0'
  · have hd0 : d = 0 := by
      rw [hc0, alphaIdx_zero_symbol] at hd'
      exact (Option.some.inj hd').symm
    subst hd0
    cases rest with
    | nil =>
      have hm0 : m = 0 := by
        simp [decodeLoop] at hm
        omega
      simp [hm0, hc0, encode_zero]
    | cons r rs =>
      have hlhs : encode m ≠ c :: r :: rs := by
        by_cases hm0 : m = 0
        · simp [hm0, encode_zero]
        · intro heq
          have hh := encodeLoop_headD_ne_zero m hm0
          rw [encode, if_neg hm0] at heq
          rw [heq] at hh
          simp [hc0] at hh
      constructor
      · intro hmap
        simp only [Option.map_some'] at hmap
        exact absurd (Option.some.inj hmap) hlhs
      · intro hR
        exact absurd ⟨by simp only [List.length_cons]; omega, by simp [hc0]⟩ hR
  · have hd0 : d ≠ 0 := by
      intro h0
      subst h0
      have hchr := chrOf_alphaIdx hd'
      rw [chrOf_zero_symbol] at hchr
      exact hc0 hchr.symm
    have hm' : decodeLoop rest d = some m := by simpa using hm
    have hmain := encodeLoop_decodeLoop rest hrest d m (Nat.pos_of_ne_zero hd0) hm'
    have hdlt : d < BASE := alphaIdx_lt hd'
    rw [encodeLoop_small hd0 hdlt, chrOf_alphaIdx hd'] at hmain
    have hmpos : m ≠ 0 := by
      have := decodeLoop_le hm'
      omega
    have hencode : encode m = c :: rest := by
      rw [encode, if_neg hmpos, hmain]
      simp
    simp [hencode, hc0]

/-- Witness for C9 at `s = "g7"` (valid, no leading `'0'`; the round
trip holds, as the theorem's right side is true for it). -/
theorem claim_C9_witness :
    (decode ['g', '7']).map encode = some ['g', '7'] := by
  have h := claim_C9_string_roundtrip ['g', '7'] (by decide) (by decide)
    (by
      intro n h
      rw [show decode (['g', '7'] : List Char) = some 999 from by decide] at h
      have hn : 999 = n := Option.some.inj h
      subst hn
      decide)
  exact h.mpr (by decide)

/-! ## Claims about the creation protocol -/

/-- C2 counterexample: with the alias absent at pre-check time and the
insert rejected by the uniqueness constraint (a concurrent duplicate),
`createShortUrl` surfaces the generic system fault, not `AliasTaken`. -/
theorem claim_C2_counterexample :
    (createShortUrl ⟨⟨[], 1, []⟩, []⟩ ⟨true, false, false, 0⟩ "user1"
        "http://example.com/a" (some "promo") none).1 =
      .error systemCreateErr ∧
    systemCreateErr ≠ aliasTakenErr := by
  exact ⟨rfl, by decide⟩

/-- C2 amended: only the pre-insert existence check yields the
`AliasTaken` validation error; a uniqueness-constraint rejection of the
insert itself reaches the catch-all and surfaces as the generic system
error `Failed to create short URL`. -/
theorem claim_C2_amended (st : SysState) (env : CreateEnv)
    (userId longUrl aliasStr : String) (topic : Option String)
    (htruthy : optTruthy (some aliasStr) = true) :
    ((dbFindByCode st.db aliasStr).isSome →
      (createShortUrl st env userId longUrl (some aliasStr) topic).1 =
        .error aliasTakenErr) ∧
    (dbFindByCode st.db aliasStr = none → env.insertDup = true →
      (createShortUrl st env userId longUrl (some aliasStr) topic).1 =
        .error systemCreateErr) := by
  constructor
  · intro hsome
    obtain ⟨r, hr⟩ := Option.isSome_iff_exists.mp hsome
    simp [createShortUrl, htruthy, hr, aliasTakenErr]
  · intro hnone hdup
    simp [createShortUrl, htruthy, hnone, hdup]

/-- Witness for C2 amended: the pre-check branch at a store already
holding `promo`, and the constraint-rejection branch at an empty store. -/
theorem claim_C2_witness :
    (createShortUrl ⟨⟨[⟨7, "u0", "http://t0", some "promo", none, 0, none⟩], 8, []⟩, []⟩
        ⟨false, false, false, 0⟩ "user1" "http://example.com/a" (some "promo") none).1 =
      .error aliasTakenErr ∧
    (createShortUrl ⟨⟨[], 1, []⟩, []⟩ ⟨true, false, false, 0⟩ "user2"
        "http://example.com/b" (some "promo") none).1 =
      .error systemCreateErr := by
  refine ⟨(claim_C2_amended _ _ _ _ _ _ (by decide)).1 (by decide), ?_⟩
  exact (claim_C2_amended _ _ _ _ _ _ (by decide)).2 (by decide) rfl

/-- C3 counterexample: the write-through to the cache fails (here the
`hSet` call throws) after the durable insert committed, yet
`createShortUrl` does not return success — it throws the generic system
error; the row is nonetheless in the durable store. -/
theorem claim_C3_counterexample :
    (createShortUrl ⟨⟨[], 1, []⟩, []⟩ ⟨false, true, false, 0⟩ "user1"
        "http://example.com/a" (some "promo") none).1 =
      .error systemCreateErr ∧
    dbFindByCode (createShortUrl ⟨⟨[], 1, []⟩, []⟩ ⟨false, true, false, 0⟩ "user1"
        "http://example.com/a" (some "promo") none).2.db "promo" =
      some ⟨1, "user1", "http://example.com/a", some "promo", none, 0, none⟩ := by
  exact ⟨rfl, rfl⟩

/-- C3 amended: if either awaited write-through call — the `hSet`, or the
`expire` that follows it — fails after the durable-store insert has
committed, `createShortUrl` surfaces the generic system error
`Failed to create short URL` to the caller (on either creation path)
while the committed row stays in the durable store; a failing `hSet`
leaves the cache untouched, and a failing `expire` leaves it exactly as a
fully successful creation would, the record already written. -/
theorem claim_C3_amended (st : SysState) (env : CreateEnv)
    (userId longUrl : String) (customAlias : Option String) (topic : Option String)
    (hfail : env.hSetFails = true ∨ env.expireFails = true)
    (hok : optTruthy customAlias = true →
      dbFindByCode st.db (customAlias.getD "") = none ∧ env.insertDup = false) :
    (createShortUrl st env userId longUrl customAlias topic).1 =
      .error systemCreateErr ∧
    (createShortUrl st env userId longUrl customAlias topic).2.db.rows.length =
      st.db.rows.length + 1 ∧
    (env.hSetFails = true →
      (createShortUrl st env userId longUrl customAlias topic).2.cache =
        st.cache) ∧
    (env.hSetFails = false →
      (createShortUrl st env userId longUrl customAlias topic).2.cache =
        (createShortUrl st { env with expireFails := false } userId longUrl
            customAlias topic).2.cache) := by
  have hcases : env.hSetFails = true ∨
      (env.hSetFails = false ∧ env.expireFails = true) := by
    rcases hfail with h | h
    · exact .inl h
    · cases hhs : env.hSetFails
      · exact .inr ⟨rfl, h⟩
      · exact .inl rfl
  by_cases htruthy : optTruthy customAlias = true
  · obtain ⟨hnone, hdup⟩ := hok htruthy
    rcases hcases with hhs | ⟨hhs, hexp⟩
    · simp [createShortUrl, htruthy, hnone, hdup, hhs]
    · simp [createShortUrl, htruthy, hnone, hdup, hhs, hexp]
  · have hfalse : optTruthy customAlias = false := by
      revert htruthy
      cases optTruthy customAlias <;> simp
    rcases hcases with hhs | ⟨hhs, hexp⟩
    · simp [createShortUrl, hfalse, hhs]
    · simp [createShortUrl, hfalse, hhs, hexp]

/-- Witness for C3 amended on the custom-alias path with an empty store
and a failing `expire`: creation errors, the row is committed, and the
cache equals that of the fully successful run. -/
theorem claim_C3_witness :
    (createShortUrl ⟨⟨[], 1, []⟩, []⟩ ⟨false, false, true, 0⟩ "user1"
        "http://example.com/a" (some "promo") none).1 =
      .error systemCreateErr ∧
    (createShortUrl ⟨⟨[], 1, []⟩, []⟩ ⟨false, false, true, 0⟩ "user1"
        "http://example.com/a" (some "promo") none).2.db.rows.length = 0 + 1 ∧
    (createShortUrl ⟨⟨[], 1, []⟩, []⟩ ⟨false, false, true, 0⟩ "user1"
        "http://example.com/a" (some "promo") none).2.cache =
      (createShortUrl ⟨⟨[], 1, []⟩, []⟩ ⟨false, false, false, 0⟩ "user1"
        "http://example.com/a" (some "promo") none).2.cache := by
  have h := claim_C3_amended ⟨⟨[], 1, []⟩, []⟩ ⟨false, false, true, 0⟩ "user1"
    "http://example.com/a" (some "promo") none (Or.inr rfl)
    (by intro h; exact ⟨rfl, rfl⟩)
  exact ⟨h.1, h.2.1, h.2.2.2 rfl⟩

/-- C10 counterexample: the alias `"ab!"` contains `'!'`, which is outside
the 62-symbol alphabet (`isValidBase62` rejects it), yet `createShortUrl`
accepts and stores it instead of rejecting with `InvalidInput` — the
validity predicate is never consulted on the creation path. -/
theorem claim_C10_counterexample :
    (createShortUrl ⟨⟨[], 1, []⟩, []⟩ ⟨false, false, false, 0⟩ "user1"
        "http://example.com/a" (some "ab!") none).1 =
      .ok ⟨1, "ab!", "http://example.com/a", none, 0⟩ ∧
    isValidBase62 ['a', 'b', '!'] = false := by
  exact ⟨rfl, by decide⟩

/-- C10 amended: `createShortUrl` performs no character-set validation on
custom aliases: even when `isValidBase62` is false for the alias, a
truthy alias absent from the durable store is accepted, stored, and
returned as the link's code. -/
theorem claim_C10_amended (st : SysState) (env : CreateEnv)
    (userId longUrl aliasStr : String) (topic : Option String)
    (htruthy : optTruthy (some aliasStr) = true)
    (_hinvalid : isValidBase62 aliasStr.data = false)
    (hnone : dbFindByCode st.db aliasStr = none)
    (hdup : env.insertDup = false) (hset : env.hSetFails = false)
    (hexp : env.expireFails = false) :
    (createShortUrl st env userId longUrl (some aliasStr) topic).1 =
      .ok ⟨st.db.nextId, aliasStr, longUrl, topic, env.now⟩ ∧
    dbFindByCode (createShortUrl st env userId longUrl (some aliasStr) topic).2.db
        aliasStr =
      some ⟨st.db.nextId, userId, longUrl, some aliasStr, topic, env.now, none⟩ := by
  have hnone' : (st.db.rows.find? fun r => decide (r.shortUrl = some aliasStr)) =
      none := hnone
  constructor
  · simp [createShortUrl, htruthy, hnone', hdup, hset, hexp, dbFindByCode]
  · simp [createShortUrl, htruthy, hnone', hdup, hset, hexp, dbFindByCode,
      List.find?_append]

/-- Witness for C10 amended at the alias `"ab!"`. -/
theorem claim_C10_witness :
    (createShortUrl ⟨⟨[], 1, []⟩, []⟩ ⟨false, false, false, 0⟩ "user1"
        "http://example.com/a" (some "ab!") none).1 =
      .ok ⟨1, "ab!", "http://example.com/a", none, 0⟩ ∧
    dbFindByCode (createShortUrl ⟨⟨[], 1, []⟩, []⟩ ⟨false, false, false, 0⟩ "user1"
        "http://example.com/a" (some "ab!") none).2.db "ab!" =
      some ⟨1, "user1", "http://example.com/a", some "ab!", none, 0, none⟩ :=
  claim_C10_amended ⟨⟨[], 1, []⟩, []⟩ ⟨false, false, false, 0⟩ "user1"
    "http://example.com/a" "ab!" none (by decide) (by decide) rfl rfl rfl rfl

/-! ## Claims about the lookup protocol -/

/-- C4: at a cache whose key `url:abc` holds only a legacy flat entry,
`HGETALL` on that string-typed key rejects with WRONGTYPE, so resolution
does not return the target at all — it surfaces the generic system error
and leaves the legacy key in place; and the migration the claim relies on
cannot run: `migrateToNewStructure` rejects at its
`redisClient.pipeline()` call (no such method on the node-redis v4
client in use), changing nothing.  Neither the claimed resolution result
nor the claimed post-state (legacy key removed, structured record
present) holds. -/
theorem claim_C4_bug :
    (getLongUrl ⟨⟨[], 1, []⟩, [("url:abc", .legacy "http://example.com/x")]⟩
        ⟨false, false, 0⟩ "abc").1 = .error systemGetErr ∧
    cacheLookup
      (getLongUrl ⟨⟨[], 1, []⟩, [("url:abc", .legacy "http://example.com/x")]⟩
        ⟨false, false, 0⟩ "abc").2.cache "url:abc" =
      some (.legacy "http://example.com/x") ∧
    migrateToNewStructure [("url:abc", CacheVal.legacy "http://example.com/x")]
        "abc" "http://example.com/x" 0 = .error () := by
  exact ⟨rfl, rfl, rfl⟩

/-- C5: `getLongUrl` fails with `NotFound` exactly when the code is
absent from the cache — no entry of either shape under its key; a
wrong-typed or degenerate entry instead surfaces the generic system error
through a WRONGTYPE rejection — and absent from the durable store; and
when only the durable store holds the code, it returns that row's target
even while the cache backfill fails. -/
theorem claim_C5_notfound (st : SysState) (env : GetEnv) (code : String) :
    ((getLongUrl st env code).1 = .error notFoundErr ↔
      cacheLookup st.cache ("url:" ++ code) = none ∧
      dbFindByCode st.db code = none) ∧
    (∀ row, cacheLookup st.cache ("url:" ++ code) = none →
      dbFindByCode st.db code = some row → env.backfillFails = true →
      (getLongUrl st env code).1 = .ok row.longUrl) := by
  have hmisses : cacheLookup st.cache ("url:" ++ code) = none →
      structuredTarget st.cache ("url:" ++ code) = none ∧
      legacyTarget st.cache ("url:" ++ code) = none := by
    intro hc
    exact ⟨by simp [structuredTarget, hGetAll, hc, hashGet],
      by simp [legacyTarget, redisGet, hc]⟩
  constructor
  · cases hc : cacheLookup st.cache ("url:" ++ code) with
    | some val =>
      cases val with
      | legacy v =>
        simp [getLongUrl, hGetAll, hc, notFoundErr, systemGetErr]
      | hash fields =>
        cases hs : structuredTarget st.cache ("url:" ++ code) with
        | some v =>
          cases hl : env.lastAccessedSetFails <;>
            simp [getLongUrl, hGetAll, hc, hs, hl, notFoundErr, systemGetErr]
        | none =>
          simp [getLongUrl, hGetAll, redisGet, hc, hs, notFoundErr, systemGetErr]
    | none =>
      obtain ⟨hs, hleg⟩ := hmisses hc
      cases hdb : dbFindByCode st.db code with
      | none => simp [getLongUrl, hGetAll, redisGet, hc, hs, hleg, hdb]
      | some row =>
        simp [getLongUrl, hGetAll, redisGet, hc, hs, hleg, hdb, notFoundErr]
  · intro row hc hdb hbf
    obtain ⟨hs, hleg⟩ := hmisses hc
    simp [getLongUrl, hGetAll, redisGet, hc, hs, hleg, hdb]

/-- Witness for C5: a code held only by the durable store (cache empty)
resolves to its target although the backfill fails. -/
theorem claim_C5_witness :
    (getLongUrl
        ⟨⟨[⟨1, "u", "http://example.com/x", some "abc", none, 0, none⟩], 2, []⟩, []⟩
        ⟨false, true, 0⟩ "abc").1 = .ok "http://example.com/x" :=
  (claim_C5_notfound
      ⟨⟨[⟨1, "u", "http://example.com/x", some "abc", none, 0, none⟩], 2, []⟩, []⟩
      ⟨false, true, 0⟩ "abc").2
    ⟨1, "u", "http://example.com/x", some "abc", none, 0, none⟩ rfl rfl rfl

/-- C6 counterexample: on a structured-cache hit, a failure of the
`lastAccessed` update makes the whole resolution fail with the generic
system error instead of returning the cached target — the update is
awaited before the return, not best-effort. -/
theorem claim_C6_counterexample :
    structuredTarget [("url:abc", .hash [("longUrl", "http://example.com/x")])]
        "url:abc" = some "http://example.com/x" ∧
    (getLongUrl ⟨⟨[], 1, []⟩, [("url:abc", .hash [("longUrl", "http://example.com/x")])]⟩
        ⟨true, false, 0⟩ "abc").1 = .error systemGetErr := by
  exact ⟨rfl, rfl⟩

/-- C6 amended: on a structured-cache hit `getLongUrl` returns the cached
target only when the awaited `lastAccessed` update succeeds; if that
update fails, the resolution fails with the generic system error
`Failed to retrieve URL`. -/
theorem claim_C6_amended (st : SysState) (env : GetEnv) (code v : String)
    (hs : structuredTarget st.cache ("url:" ++ code) = some v) :
    (env.lastAccessedSetFails = false → (getLongUrl st env code).1 = .ok v) ∧
    (env.lastAccessedSetFails = true →
      (getLongUrl st env code).1 = .error systemGetErr) := by
  rcases hga : hGetAll st.cache ("url:" ++ code) with e | fields
  · have hnone : structuredTarget st.cache ("url:" ++ code) = none := by
      simp [structuredTarget, hga]
    rw [hnone] at hs
    exact Option.noConfusion hs
  · constructor <;> intro hf <;> simp [getLongUrl, hga, hs, hf]

/-- Witness for C6 amended at a one-entry structured cache, both for the
succeeding and for the failing `lastAccessed` update. -/
theorem claim_C6_witness :
    (getLongUrl ⟨⟨[], 1, []⟩, [("url:abc", .hash [("longUrl", "http://example.com/x")])]⟩
        ⟨false, false, 0⟩ "abc").1 = .ok "http://example.com/x" ∧
    (getLongUrl ⟨⟨[], 1, []⟩, [("url:abc", .hash [("longUrl", "http://example.com/x")])]⟩
        ⟨true, false, 0⟩ "abc").1 = .error systemGetErr :=
  ⟨(claim_C6_amended ⟨⟨[], 1, []⟩, [("url:abc", .hash [("longUrl", "http://example.com/x")])]⟩
      ⟨false, false, 0⟩ "abc" "http://example.com/x" rfl).1 rfl,
   (claim_C6_amended ⟨⟨[], 1, []⟩, [("url:abc", .hash [("longUrl", "http://example.com/x")])]⟩
      ⟨true, false, 0⟩ "abc" "http://example.com/x" rfl).2 rfl⟩

/-- C7 counterexample: the resolution itself succeeds out of the cache,
but the handler awaits the visit recorder before redirecting, and the
recorder's failure (the code has no durable-store row to attach the visit
to) becomes the response — no redirect is sent. -/
theorem claim_C7_counterexample :
    (getLongUrl ⟨⟨[], 1, []⟩, [("url:abc", .hash [("longUrl", "http://example.com/x")])]⟩
        ⟨false, false, 0⟩ "abc").1 = .ok "http://example.com/x" ∧
    (redirectRoute ⟨⟨[], 1, []⟩, [("url:abc", .hash [("longUrl", "http://example.com/x")])]⟩
        ⟨false, false, 0⟩ ⟨false, 0⟩ "abc" ⟨"1.2.3.4", "agent"⟩).1 =
      .failed notFoundErr := by
  exact ⟨rfl, rfl⟩

/-- C7 amended: visit recording is awaited between resolution and the
redirect: the handler's response is the redirect exactly when
`trackVisitFromRequest` succeeds after a successful resolution; a
visit-recorder error becomes the response in place of the redirect, and a
resolution error is likewise forwarded. -/
theorem claim_C7_amended (st : SysState) (genv : GetEnv) (tenv : TrackEnv)
    (code : String) (req : Req) :
    (redirectRoute st genv tenv code req).1 =
      match (getLongUrl st genv code).1 with
      | .error e => .failed e
      | .ok url =>
        match (trackVisitFromRequest (getLongUrl st genv code).2 tenv code req).1 with
        | .error e => .failed e
        | .ok _ => .redirect url := by
  rcases hG : getLongUrl st genv code with ⟨r1, st1⟩
  rcases r1 with e | url
  · simp [redirectRoute, hG]
  · rcases hT : trackVisitFromRequest st1 tenv code req with ⟨r2, st2⟩
    rcases r2 with e | u
    · simp [redirectRoute, hG, hT]
    · simp [redirectRoute, hG, hT]

end UrlShortener
